import Mathlib

/-!
Verification of the soft-splits blackjack trainer core.

Shallow embedding of the decision-policy core of `blackjack_trainer.jsx`
(hand evaluation, basic-strategy decision, settlement) together with the
`settleHand` variant of `blackjack_trainer.test.js` that exposes an
explicit outcome tag.  Machine numbers are modelled as `Nat`: every value
handled by the core (card values, totals, wagers) is a small non-negative
integer, on which JavaScript number arithmetic is exact.
-/

namespace Blackjack

/-- Suits, semantically irrelevant to card values (kept for fidelity to the
`{r, s, id}` card records of the source). -/
inductive Suit
  | spades | hearts | diamonds | clubs
  deriving DecidableEq, Repr

/-- The 13 ranks `"A","2",...,"10","J","Q","K"` of the `RANKS` list in the source. -/
inductive Rank
  | A | n2 | n3 | n4 | n5 | n6 | n7 | n8 | n9 | n10 | J | Q | K
  deriving DecidableEq, Repr

/-- A card record `{ r, s, id }` as built by `makeShoe`. -/
structure Card where
  r : Rank
  s : Suit
  id : String
  deriving DecidableEq, Repr

/-- `rankValue = (r) => (r === "A" ? 11 : ["K","Q","J","10"].includes(r) ? 10
: parseInt(r, 10))`. -/
def rankValue : Rank → Nat
  | Rank.A => 11
  | Rank.K => 10
  | Rank.Q => 10
  | Rank.J => 10
  | Rank.n10 => 10
  | Rank.n2 => 2
  | Rank.n3 => 3
  | Rank.n4 => 4
  | Rank.n5 => 5
  | Rank.n6 => 6
  | Rank.n7 => 7
  | Rank.n8 => 8
  | Rank.n9 => 9

/-- `isTenValueRank = (r) => ["10","J","Q","K"].includes(r)`. -/
def isTenValueRank : Rank → Bool
  | Rank.n10 => true
  | Rank.J => true
  | Rank.Q => true
  | Rank.K => true
  | _ => false

/-- First accumulation loop of `handTotal`: every Ace counted as 11
(`if (c.r === "A") { aces++; total += 11; } else total += rankValue(c.r)`). -/
def highSum : List Card → Nat
  | [] => 0
  | c :: cs => (if c.r = Rank.A then 11 else rankValue c.r) + highSum cs

/-- Number of Aces counted by the same loop of `handTotal`. -/
def aceCount : List Card → Nat
  | [] => 0
  | c :: cs => (if c.r = Rank.A then 1 else 0) + aceCount cs

/-- The `while (total > 21 && aces > 0) { total -= 10; aces--; }` loop of
`handTotal`, structurally recursive on the remaining Ace budget. -/
def adjust : Nat → Nat → Nat
  | total, 0 => total
  | total, aces + 1 => if 21 < total then adjust (total - 10) aces else total

/-- Second accumulation loop of `handTotal`: every Ace counted as 1
(`if (c.r === "A") { aceCount++; baseAsOne += 1; } else baseAsOne +=
rankValue(c.r)`). -/
def baseAsOne : List Card → Nat
  | [] => 0
  | c :: cs => (if c.r = Rank.A then 1 else rankValue c.r) + baseAsOne cs

/-- Sum of the non-Ace card values (the `base` accumulated in the
soft-totals section of `basicStrategyDecision`). -/
def nonAceSum : List Card → Nat
  | [] => 0
  | c :: cs => (if c.r = Rank.A then 0 else rankValue c.r) + nonAceSum cs

/-- Result record `{ total, soft }` of `handTotal`. -/
structure HandValue where
  total : Nat
  soft : Bool
  deriving DecidableEq, Repr

/-- `handTotal(cards)`: Ace-high sum adjusted downward while busting and an
Ace remains, and the soft flag `aceCount > 0 && baseAsOne + 10 <= 21`. -/
def handTotal (cards : List Card) : HandValue :=
  { total := adjust (highSum cards) (aceCount cards)
    soft := decide (0 < aceCount cards) && decide (baseAsOne cards + 10 ≤ 21) }

/-- `isBlackjack = (cards) => cards.length === 2 && handTotal(cards).total === 21`. -/
def isBlackjack (cards : List Card) : Bool :=
  cards.length == 2 && (handTotal cards).total == 21

/-- The four strings returned by `classifyInitialHand`. -/
inductive HandClass
  | pairs | soft | hard | unknown
  deriving DecidableEq, Repr

/-- `classifyInitialHand(cards)`: `unknown` unless exactly 2 cards; equal
rank values classify as `hard` when ten-valued (the source comment:
"exclude ALL 10-value pairs") and `pairs` otherwise; else per soft flag. -/
def classifyInitialHand (cards : List Card) : HandClass :=
  match cards with
  | [c1, c2] =>
    let v1 := rankValue c1.r
    let v2 := rankValue c2.r
    if v1 = v2 then
      if v1 = 10 then HandClass.hard else HandClass.pairs
    else if (handTotal [c1, c2]).soft then HandClass.soft else HandClass.hard
  | _ => HandClass.unknown

/-- `isPair = (cards) => cards.length === 2 && ((isTenValueRank(cards[0].r)
&& isTenValueRank(cards[1].r)) || cards[0].r === cards[1].r)`. -/
def isPair (cards : List Card) : Bool :=
  match cards with
  | [c1, c2] => (isTenValueRank c1.r && isTenValueRank c2.r) || c1.r == c2.r
  | _ => false

/-- `upcardValue = (card) => !card ? 0 : (card.r === "A" ? 11 :
rankValue(card.r))`: an absent up-card yields 0. -/
def upcardValue : Option Card → Nat
  | none => 0
  | some c => if c.r = Rank.A then 11 else rankValue c.r

/-- The four action strings of the strategy engine. -/
inductive Action
  | HIT | STAND | DOUBLE | SPLIT
  deriving DecidableEq, Repr

/-- Result record `{ action, reason }` of `basicStrategyDecision`. -/
structure Decision where
  action : Action
  reason : String
  deriving DecidableEq, Repr

/-- The `{ canDouble, canSplit }` options record. -/
structure Opts where
  canDouble : Bool
  canSplit : Bool
  deriving DecidableEq, Repr

/-- `r1`/`r2` from `const [r1, r2] = playerCards.map((c) => c.r)`: absent
positions (JS `undefined`) are `none`. -/
def rankAt (playerCards : List Card) (i : Nat) : Option Rank :=
  (playerCards.map (fun c => c.r)).get? i

/-- `rankValue(r)` applied to a possibly-`undefined` rank: comparisons of
`rankValue(undefined)` (JS `NaN`) with a number are all false, which the
`Option` lifting mirrors. -/
def rankValueOpt : Option Rank → Option Nat
  | none => none
  | some r => some (rankValue r)

/-- `isTenValueRank` on a possibly-`undefined` rank
(`["10","J","Q","K"].includes(undefined)` is false). -/
def isTenOpt : Option Rank → Bool
  | none => false
  | some r => isTenValueRank r

/-- The pairs section of `basicStrategyDecision` (entered only when
`pair && opts.canSplit`); every path returns. -/
def pairDecision (r1 r2 : Option Rank) (d : Nat) : Decision :=
  if r1 = some Rank.A ∧ r2 = some Rank.A then ⟨Action.SPLIT, "Split A,A always."⟩
  else if (r1 = some Rank.n8 ∧ r2 = some Rank.n8) ∨
      (rankValueOpt r1 = some 8 ∧ rankValueOpt r2 = some 8) then
    ⟨Action.SPLIT, "Split 8,8 always."⟩
  else if isTenOpt r1 = true ∧ isTenOpt r2 = true then
    ⟨Action.STAND, "10-value pair: stand."⟩
  else if (r1 = some Rank.n9 ∧ r2 = some Rank.n9) ∨
      (rankValueOpt r1 = some 9 ∧ rankValueOpt r2 = some 9) then
    if 2 ≤ d ∧ d ≤ 9 ∧ d ≠ 7 then ⟨Action.SPLIT, "9,9 split vs 2–9 except 7."⟩
    else ⟨Action.STAND, "9,9 stand vs 7,10,A."⟩
  else if (r1 = some Rank.n7 ∧ r2 = some Rank.n7) ∨
      (rankValueOpt r1 = some 7 ∧ rankValueOpt r2 = some 7) then
    if 2 ≤ d ∧ d ≤ 7 then ⟨Action.SPLIT, "7,7 split vs 2–7."⟩
    else ⟨Action.HIT, "7,7 otherwise hit."⟩
  else if (r1 = some Rank.n6 ∧ r2 = some Rank.n6) ∨
      (rankValueOpt r1 = some 6 ∧ rankValueOpt r2 = some 6) then
    if 2 ≤ d ∧ d ≤ 6 then ⟨Action.SPLIT, "6,6 split vs 2–6."⟩
    else ⟨Action.HIT, "6,6 otherwise hit."⟩
  else if (r1 = some Rank.n4 ∧ r2 = some Rank.n4) ∨
      (rankValueOpt r1 = some 4 ∧ rankValueOpt r2 = some 4) then
    if 5 ≤ d ∧ d ≤ 6 then ⟨Action.SPLIT, "4,4 split vs 5–6."⟩
    else ⟨Action.HIT, "4,4 otherwise hit."⟩
  else if (r1 = some Rank.n3 ∧ r2 = some Rank.n3) ∨
      (rankValueOpt r1 = some 3 ∧ rankValueOpt r2 = some 3) ∨
      (r1 = some Rank.n2 ∧ r2 = some Rank.n2) ∨
      (rankValueOpt r1 = some 2 ∧ rankValueOpt r2 = some 2) then
    if 2 ≤ d ∧ d ≤ 7 then ⟨Action.SPLIT, "3,3 & 2,2 split vs 2–7."⟩
    else ⟨Action.HIT, "Otherwise hit."⟩
  else ⟨Action.HIT, "Unlisted pair: hit."⟩

/-- The soft-totals section of `basicStrategyDecision`; `none` models the
fall-through to the hard-totals section when no `softTotal` case matches
(e.g. `softTotal = 11` for A,A with splitting unavailable). -/
def softDecision (softTotal d : Nat) (canDouble : Bool) : Option Decision :=
  if 19 ≤ softTotal then some ⟨Action.STAND, "A8+ stand."⟩
  else if softTotal = 18 then
    if 3 ≤ d ∧ d ≤ 6 ∧ canDouble = true then some ⟨Action.DOUBLE, "A7 double vs 3–6."⟩
    else if d = 2 ∨ d = 7 ∨ d = 8 then some ⟨Action.STAND, "A7 stand vs 2,7,8."⟩
    else some ⟨Action.HIT, "A7 hit vs 9,10,A."⟩
  else if softTotal = 13 ∨ softTotal = 14 then
    if (d = 5 ∨ d = 6) ∧ canDouble = true then some ⟨Action.DOUBLE, "A2–A3 double vs 5–6."⟩
    else some ⟨Action.HIT, "Otherwise hit."⟩
  else if softTotal = 15 ∨ softTotal = 16 then
    if 4 ≤ d ∧ d ≤ 6 ∧ canDouble = true then some ⟨Action.DOUBLE, "A4–A5 double vs 4–6."⟩
    else some ⟨Action.HIT, "Otherwise hit."⟩
  else if softTotal = 17 then
    if 3 ≤ d ∧ d ≤ 6 ∧ canDouble = true then some ⟨Action.DOUBLE, "A6 double vs 3–6."⟩
    else some ⟨Action.HIT, "Otherwise hit."⟩
  else none

/-- The hard-totals section of `basicStrategyDecision`. -/
def hardDecision (total d : Nat) (canDouble : Bool) : Decision :=
  if 17 ≤ total then ⟨Action.STAND, "Hard 17+ stand."⟩
  else if 13 ≤ total ∧ total ≤ 16 then
    if 2 ≤ d ∧ d ≤ 6 then ⟨Action.STAND, "Hard 13–16 stand vs 2–6."⟩
    else ⟨Action.HIT, "Otherwise hit."⟩
  else if total = 12 then
    if 4 ≤ d ∧ d ≤ 6 then ⟨Action.STAND, "Hard 12 stand vs 4–6."⟩
    else ⟨Action.HIT, "Otherwise hit."⟩
  else if total = 11 then
    ⟨if canDouble then Action.DOUBLE else Action.HIT,
     if canDouble then "Hard 11 double vs any." else "Double not available: hit."⟩
  else if total = 10 then
    ⟨if 2 ≤ d ∧ d ≤ 9 ∧ canDouble = true then Action.DOUBLE else Action.HIT,
     if 2 ≤ d ∧ d ≤ 9 then "Hard 10 double vs 2–9." else "Otherwise hit."⟩
  else if total = 9 then
    ⟨if 3 ≤ d ∧ d ≤ 6 ∧ canDouble = true then Action.DOUBLE else Action.HIT,
     if 3 ≤ d ∧ d ≤ 6 then "Hard 9 double vs 3–6." else "Otherwise hit."⟩
  else ⟨Action.HIT, "Hard 8 or less: hit."⟩

/-- `basicStrategyDecision(playerCards, dealerUp, opts)`: the pairs section
when `pair && opts.canSplit`, else the soft-totals section (which may fall
through), else the hard-totals section. -/
def basicStrategyDecision (playerCards : List Card) (dealerUp : Option Card)
    (opts : Opts) : Decision :=
  let d := upcardValue dealerUp
  let hv := handTotal playerCards
  if isPair playerCards = true ∧ opts.canSplit = true then
    pairDecision (rankAt playerCards 0) (rankAt playerCards 1) d
  else
    let fromSoft :=
      if hv.soft = true then softDecision (nonAceSum playerCards + 11) d opts.canDouble
      else none
    match fromSoft with
    | some dec => dec
    | none => hardDecision hv.total d opts.canDouble

/-- Outcome tags of the test-suite `settleHand` (the `.jsx` variant carries
the same branch structure with a message string instead). -/
inductive Outcome
  | blackjack | push | bust | dealer_bust | win | lose
  deriving DecidableEq, Repr

/-- Result record of `settleHand`. -/
structure SettleResult where
  delta : Nat
  outcome : Outcome
  playerTotal : Nat
  dealerTotal : Nat
  deriving DecidableEq, Repr

/-- `settleHand(playerCards, dealerCards, bet)`: blackjack resolution first,
then busts, then the total comparison.  `Math.floor(bet * 2.5)` on an
integer wager is `5 * bet / 2` in truncating `Nat` division. -/
def settleHand (playerCards dealerCards : List Card) (bet : Nat) : SettleResult :=
  let pt := (handTotal playerCards).total
  let dt := (handTotal dealerCards).total
  let playerBJ := isBlackjack playerCards
  let dealerBJ := isBlackjack dealerCards
  if playerBJ = true ∧ dealerBJ = false then ⟨5 * bet / 2, Outcome.blackjack, pt, dt⟩
  else if playerBJ = true ∧ dealerBJ = true then ⟨bet, Outcome.push, pt, dt⟩
  else if 21 < pt then ⟨0, Outcome.bust, pt, dt⟩
  else if 21 < dt then ⟨bet * 2, Outcome.dealer_bust, pt, dt⟩
  else if dt < pt then ⟨bet * 2, Outcome.win, pt, dt⟩
  else if pt < dt then ⟨0, Outcome.lose, pt, dt⟩
  else ⟨bet, Outcome.push, pt, dt⟩

/-! ## Concrete cards used in closed evaluations -/

/-- Ace of spades. -/
def cA : Card := ⟨Rank.A, Suit.spades, "As"⟩

/-- Ace of hearts. -/
def cAh : Card := ⟨Rank.A, Suit.hearts, "Ah"⟩

/-- Ace of diamonds. -/
def cAd : Card := ⟨Rank.A, Suit.diamonds, "Ad"⟩

/-- Six of hearts. -/
def c6 : Card := ⟨Rank.n6, Suit.hearts, "6h"⟩

/-- Seven of spades. -/
def c7s : Card := ⟨Rank.n7, Suit.spades, "7s"⟩

/-- Seven of hearts. -/
def c7h : Card := ⟨Rank.n7, Suit.hearts, "7h"⟩

/-- Seven of diamonds. -/
def c7d : Card := ⟨Rank.n7, Suit.diamonds, "7d"⟩

/-- Eight of clubs. -/
def c8c : Card := ⟨Rank.n8, Suit.clubs, "8c"⟩

/-- Nine of hearts. -/
def c9h : Card := ⟨Rank.n9, Suit.hearts, "9h"⟩

/-- Five of clubs. -/
def c5c : Card := ⟨Rank.n5, Suit.clubs, "5c"⟩

/-- Ten of diamonds. -/
def c10d : Card := ⟨Rank.n10, Suit.diamonds, "10d"⟩

/-- Ten of spades. -/
def c10s : Card := ⟨Rank.n10, Suit.spades, "10s"⟩

/-- Nine of diamonds. -/
def c9d : Card := ⟨Rank.n9, Suit.diamonds, "9d"⟩

/-- King of spades. -/
def cK : Card := ⟨Rank.K, Suit.spades, "Ks"⟩

/-- King of hearts. -/
def cKh : Card := ⟨Rank.K, Suit.hearts, "Kh"⟩

/-- Jack of hearts. -/
def cJh : Card := ⟨Rank.J, Suit.hearts, "Jh"⟩

/-- Four of diamonds. -/
def c4d : Card := ⟨Rank.n4, Suit.diamonds, "4d"⟩

/-! ## Arithmetic facts about the Ace-adjustment loop -/

/-- The Ace-high sum exceeds the Ace-low sum by exactly 10 per Ace. -/
theorem highSum_eq_baseAsOne (cards : List Card) :
    highSum cards = baseAsOne cards + 10 * aceCount cards := by
  induction cards with
  | nil => rfl
  | cons c cs ih =>
    by_cases h : c.r = Rank.A <;> simp [highSum, baseAsOne, aceCount, h, ih] <;> ring

/-- The Ace-low sum splits into the non-Ace sum plus one per Ace. -/
theorem baseAsOne_eq_nonAceSum (cards : List Card) :
    baseAsOne cards = nonAceSum cards + aceCount cards := by
  induction cards with
  | nil => rfl
  | cons c cs ih =>
    by_cases h : c.r = Rank.A <;> simp [nonAceSum, baseAsOne, aceCount, h, ih] <;> ring

/-- The adjustment loop stays at or below 21 as soon as downgrading every
remaining Ace would reach 21 or less. -/
theorem adjust_le_21 : ∀ (aces total : Nat), total - 10 * aces ≤ 21 →
    adjust total aces ≤ 21
  | 0, total, h => by simpa [adjust] using h
  | aces + 1, total, h => by
    by_cases h21 : 21 < total
    · simpa [adjust, h21] using adjust_le_21 aces (total - 10) (by omega)
    · simp [adjust, h21]; omega

/-- The adjustment loop subtracts 10 between zero and `aces` times. -/
theorem adjust_exists_steps : ∀ (aces total : Nat),
    ∃ k, k ≤ aces ∧ adjust total aces = total - 10 * k
  | 0, total => ⟨0, Nat.le_refl 0, by simp [adjust]⟩
  | aces + 1, total => by
    by_cases h21 : 21 < total
    · obtain ⟨k, hk, he⟩ := adjust_exists_steps aces (total - 10)
      exact ⟨k + 1, by omega, by simp [adjust, h21, he]; omega⟩
    · exact ⟨0, Nat.zero_le _, by simp [adjust, h21]⟩

/-- The adjustment loop never undershoots a non-busting downgrade count:
its result dominates every reachable total that is at most 21. -/
theorem adjust_ge_nonbust : ∀ (aces total k : Nat), k ≤ aces →
    total - 10 * k ≤ 21 → total - 10 * k ≤ adjust total aces
  | 0, total, k, hk, _ => by
    interval_cases k
    simp [adjust]
  | aces + 1, total, k, hk, h => by
    by_cases h21 : 21 < total
    · have hk0 : k ≠ 0 := by rintro rfl; simp at h; omega
      obtain ⟨k', rfl⟩ : ∃ k', k = k' + 1 := ⟨k - 1, by omega⟩
      have := adjust_ge_nonbust aces (total - 10) k' (by omega) (by omega)
      simp only [adjust, if_pos h21]
      omega
    · simp only [adjust, if_neg h21]
      omega

/-- When even counting every Ace as 1 busts, the loop downgrades all of
them and returns that minimal (busting) sum. -/
theorem adjust_all_bust : ∀ (aces total : Nat), 21 < total - 10 * aces →
    adjust total aces = total - 10 * aces
  | 0, total, _ => by simp [adjust]
  | aces + 1, total, h => by
    have h21 : 21 < total := by omega
    have := adjust_all_bust aces (total - 10) (by omega)
    simp only [adjust, if_pos h21, this]
    omega

/-- The soft flag of `handTotal`, unfolded. -/
theorem handTotal_soft_iff (cards : List Card) :
    (handTotal cards).soft = true ↔
      0 < aceCount cards ∧ baseAsOne cards + 10 ≤ 21 := by
  simp [handTotal]

/-- C1. For every non-empty list of cards, `handTotal` returns the best
non-bust total: its result is the Ace-high sum minus 10 for each of some
number of downgraded Aces, it dominates every such non-bust alternative,
and it only exceeds 21 when even the all-Aces-low sum does (in which case
it equals that minimal sum); in particular `handTotal [A,6]` is soft 17,
`handTotal [A,6,10]` is hard 17, and `handTotal [A,A,A]` is soft 13. -/
theorem handTotal_best_nonbust (cards : List Card) (hne : cards ≠ []) :
    (∃ k, k ≤ aceCount cards ∧
        (handTotal cards).total = highSum cards - 10 * k) ∧
    (∀ k, k ≤ aceCount cards → highSum cards - 10 * k ≤ 21 →
        highSum cards - 10 * k ≤ (handTotal cards).total) ∧
    ((handTotal cards).total ≤ 21 ∨
        (handTotal cards).total = baseAsOne cards) ∧
    handTotal [cA, c6] = ⟨17, true⟩ ∧
    handTotal [cA, c6, c10d] = ⟨17, false⟩ ∧
    handTotal [cA, cAh, cAd] = ⟨13, true⟩ := by
  refine ⟨?_, ?_, ?_, by decide, by decide, by decide⟩
  · simpa [handTotal] using adjust_exists_steps (aceCount cards) (highSum cards)
  · intro k hk h
    simpa [handTotal] using adjust_ge_nonbust (aceCount cards) (highSum cards) k hk h
  · by_cases hb : baseAsOne cards ≤ 21
    · left
      show adjust (highSum cards) (aceCount cards) ≤ 21
      exact adjust_le_21 _ _ (by rw [highSum_eq_baseAsOne]; omega)
    · right
      show adjust (highSum cards) (aceCount cards) = baseAsOne cards
      rw [adjust_all_bust _ _ (by rw [highSum_eq_baseAsOne]; omega),
        highSum_eq_baseAsOne]
      omega

/-- C1 witness. The best-non-bust theorem instantiated on the concrete
hand A♠ 6♥: the single downgrade-by-one alternative 7 is dominated and the
total is reachable. -/
theorem handTotal_best_nonbust_witness :
    (highSum [cA, c6] - 10 * 1 ≤ (handTotal [cA, c6]).total) ∧
    (∃ k, k ≤ aceCount [cA, c6] ∧
        (handTotal [cA, c6]).total = highSum [cA, c6] - 10 * k) := by
  have h := handTotal_best_nonbust [cA, c6] (List.cons_ne_nil _ _)
  exact ⟨h.2.1 1 (by decide) (by decide), h.1⟩

/-- C10. A soft hand never busts: whenever `handTotal` reports
`soft = true`, the reported total is at most 21. -/
theorem soft_implies_total_le_21 (cards : List Card) (hne : cards ≠ [])
    (hs : (handTotal cards).soft = true) : (handTotal cards).total ≤ 21 := by
  obtain ⟨ha, hb⟩ := (handTotal_soft_iff cards).1 hs
  show adjust (highSum cards) (aceCount cards) ≤ 21
  exact adjust_le_21 _ _ (by rw [highSum_eq_baseAsOne]; omega)

/-- C10 witness. The soft hand A♠ 6♥ has total 17 ≤ 21. -/
theorem soft_implies_total_le_21_witness : (handTotal [cA, c6]).total ≤ 21 :=
  soft_implies_total_le_21 [cA, c6] (List.cons_ne_nil _ _) (by decide)

/-- C4 counterexample. On [A,A,10] the evaluator reports `soft = false`
although an Ace is present and (sum of non-Ace values) + 11 = 21 ≤ 21, so
the claimed formula is not equivalent to the soft flag computed by the code. -/
theorem soft_formula_counterexample :
    (handTotal [cA, cAh, c10d]).soft = false ∧
    0 < aceCount [cA, cAh, c10d] ∧
    nonAceSum [cA, cAh, c10d] + 11 ≤ 21 := by decide

/-- C4 amended. The soft flag is true iff at least one Ace is present
and (sum of non-Ace values) + (number of Aces − 1) + 11 ≤ 21: every Ace
beyond the one counted as 11 contributes 1, which the formula in the spec
omits. -/
theorem soft_formula_amended (cards : List Card) :
    (handTotal cards).soft = true ↔
      0 < aceCount cards ∧
        nonAceSum cards + (aceCount cards - 1) + 11 ≤ 21 := by
  rw [handTotal_soft_iff]
  have hb := baseAsOne_eq_nonAceSum cards
  constructor
  · rintro ⟨h1, h2⟩
    exact ⟨h1, by omega⟩
  · rintro ⟨h1, h2⟩
    exact ⟨h1, by omega⟩

/-! ## Settlement -/

/-- `Math.floor(bet * 2.5)` on an integer wager is truncating division by 2
of `5 * bet`. -/
theorem floor_two_point_five (b : Nat) :
    Nat.floor ((b : ℚ) * 2.5) = 5 * b / 2 := by
  have h : ((b : ℚ) * 2.5) = ((5 * b : ℕ) : ℚ) / ((2 : ℕ) : ℚ) := by
    push_cast
    ring_nf
  rw [h, Nat.floor_div_nat, Nat.floor_natCast]

/-- C2. A player blackjack against a non-blackjack dealer hand settles
as a blackjack win whose delta is the floor of wager × 2.5 (truncated, not
rounded). -/
theorem blackjack_pays_floor (playerCards dealerCards : List Card) (bet : Nat)
    (hp : isBlackjack playerCards = true)
    (hd : isBlackjack dealerCards = false) :
    settleHand playerCards dealerCards bet =
      { delta := Nat.floor ((bet : ℚ) * 2.5), outcome := Outcome.blackjack,
        playerTotal := 21, dealerTotal := (handTotal dealerCards).total } := by
  have hpt : (handTotal playerCards).total = 21 := by
    simp [isBlackjack] at hp
    exact hp.2
  rw [floor_two_point_five]
  simp [settleHand, hp, hd, hpt]

/-- C2 witness. A♠ K♠ against 10♦ 9♦ with a wager of 33 settles at
delta 82 (floor of 82.5), not 83. -/
theorem blackjack_pays_floor_witness :
    (settleHand [cA, cK] [c10d, c9d] 33).delta = 82 ∧
    (settleHand [cA, cK] [c10d, c9d] 33).delta ≠ 83 := by
  have h := blackjack_pays_floor [cA, cK] [c10d, c9d] 33 (by decide) (by decide)
  rw [h, floor_two_point_five]
  exact ⟨rfl, by decide⟩

/-- C6. A non-natural player 21 (3+ cards) against a dealer natural
blackjack settles as a push returning the wager: the resolution order has
no dealer-blackjack-beats-21 special case. -/
theorem dealer_blackjack_vs_21_pushes (playerCards dealerCards : List Card)
    (bet : Nat) (hp21 : (handTotal playerCards).total = 21)
    (hpbj : isBlackjack playerCards = false)
    (hdbj : isBlackjack dealerCards = true) :
    settleHand playerCards dealerCards bet = ⟨bet, Outcome.push, 21, 21⟩ := by
  have hdt : (handTotal dealerCards).total = 21 := by
    simp [isBlackjack] at hdbj
    exact hdbj.2
  simp [settleHand, hpbj, hdbj, hp21, hdt]

/-- C6 witness. 7♠ 7♥ 7♦ (a 3-card 21) against A♠ J♥ (a natural) at a
wager of 25 settles as a push with delta 25. -/
theorem dealer_blackjack_vs_21_pushes_witness :
    settleHand [c7s, c7h, c7d] [cA, cJh] 25 = ⟨25, Outcome.push, 21, 21⟩ :=
  dealer_blackjack_vs_21_pushes [c7s, c7h, c7d] [cA, cJh] 25
    (by decide) (by decide) (by decide)

/-- C7. The player-bust check precedes every comparison with the
dealer: any player total above 21 settles as BUST with delta 0, whatever
the dealer holds (busted or not). -/
theorem player_bust_checked_first (playerCards dealerCards : List Card)
    (bet : Nat) (h : 21 < (handTotal playerCards).total) :
    settleHand playerCards dealerCards bet =
      ⟨0, Outcome.bust, (handTotal playerCards).total,
        (handTotal dealerCards).total⟩ := by
  have hpbj : isBlackjack playerCards = false := by
    simp only [isBlackjack, Bool.and_eq_false_iff]
    right
    simpa using Nat.ne_of_gt h
  simp [settleHand, hpbj, h]

/-- C7 witness. The busted 10♠ 9♦ 5♣ (24) against the also-busted
10♦ 8♣ 7♠ (25) settles as BUST with delta 0, not as a push or dealer
bust. -/
theorem player_bust_checked_first_witness :
    settleHand [c10s, c9d, c5c] [c10d, c8c, c7s] 25 =
      ⟨0, Outcome.bust, 24, 25⟩ := by
  have h := player_bust_checked_first [c10s, c9d, c5c] [c10d, c8c, c7s] 25
    (by decide)
  rw [h]
  decide

/-! ## Missing dealer up-card -/

/-- C3 counterexample. With the dealer up-card absent, `upcardValue`
silently yields 0 and the strategy engine returns an ordinary
recommendation (HIT for hard 16 vs the defaulted 0) instead of failing:
the engine has no error path for a missing up-card. -/
theorem missing_upcard_counterexample :
    upcardValue none = 0 ∧
    (basicStrategyDecision [c10d, c6] none ⟨true, true⟩).action = Action.HIT := by
  decide

/-- C3 amended. An absent dealer up-card is not a caller error to the
engine: `upcardValue` defaults it to 0 and `basicStrategyDecision`
proceeds normally with that dealer value (hard 16 vs 0 falls outside every
stand/double range, hence HIT, under all four option settings). -/
theorem missing_upcard_silently_zero (opts : Opts) :
    upcardValue none = 0 ∧
    (basicStrategyDecision [c10d, c6] none opts).action = Action.HIT := by
  obtain ⟨cd, cs⟩ := opts
  cases cd <;> cases cs <;> exact ⟨rfl, by decide⟩

/-! ## Hand classification -/

/-- A rank has value 10 exactly when it belongs to the ten-value group. -/
theorem rankValue_eq_ten_iff (r : Rank) :
    rankValue r = 10 ↔ isTenValueRank r = true := by
  cases r <;> simp [rankValue, isTenValueRank]

/-- Spec-side restatement for the amended C9: ten-value two-card hands
(equal or mixed ranks) classify as `hard`, other equal-value hands as
`pairs`, the rest by the soft flag, and non-two-card hands as `unknown`. -/
def classifyAmended (cards : List Card) : HandClass :=
  match cards with
  | [c1, c2] =>
    if isTenValueRank c1.r = true ∧ isTenValueRank c2.r = true then HandClass.hard
    else if rankValue c1.r = rankValue c2.r then HandClass.pairs
    else if (handTotal [c1, c2]).soft = true then HandClass.soft else HandClass.hard
  | _ => HandClass.unknown

/-- C9 counterexample. The rank-equal ten-value hand K♠ K♥ classifies
as `hard`, not `pairs`: `classifyInitialHand` excludes every ten-value
combination from `pairs`. -/
theorem classify_ten_pair_counterexample :
    classifyInitialHand [cK, cKh] = HandClass.hard ∧
    classifyInitialHand [cK, cKh] ≠ HandClass.pairs := by
  decide

/-- C9 amended. `classifyInitialHand` returns one of
{pairs, soft, hard, unknown}: `unknown` for any hand that is not exactly
2 cards; `hard` whenever both cards are ten-value (rank-equal or mixed);
`pairs` for the remaining equal-value hands; otherwise `soft` or `hard`
according to the soft flag of the evaluator. -/
theorem classify_matches_amended (cards : List Card) :
    classifyInitialHand cards = classifyAmended cards := by
  match cards with
  | [] => rfl
  | [_] => rfl
  | _ :: _ :: _ :: _ => rfl
  | [c1, c2] =>
    simp only [classifyInitialHand, classifyAmended]
    by_cases hv : rankValue c1.r = rankValue c2.r
    · by_cases h10 : rankValue c1.r = 10
      · have t1 : isTenValueRank c1.r = true := (rankValue_eq_ten_iff c1.r).1 h10
        have t2 : isTenValueRank c2.r = true :=
          (rankValue_eq_ten_iff c2.r).1 (hv ▸ h10)
        simp [hv, h10, t1, t2, hv ▸ h10]
      · have hten : ¬(isTenValueRank c1.r = true ∧ isTenValueRank c2.r = true) := by
          rintro ⟨t1, _⟩
          exact h10 ((rankValue_eq_ten_iff c1.r).2 t1)
        have h10b : ¬rankValue c2.r = 10 := fun h => h10 (hv.trans h)
        simp [hv, h10, hten, h10b]
    · have hten : ¬(isTenValueRank c1.r = true ∧ isTenValueRank c2.r = true) := by
        rintro ⟨t1, t2⟩
        exact hv (((rankValue_eq_ten_iff c1.r).2 t1).trans
          ((rankValue_eq_ten_iff c2.r).2 t2).symm)
      simp [hv, hten]

/-! ## Ten-value pairs in the strategy engine -/

/-- The pairs section answers STAND on every ten-value pair: the A,A and
8,8 checks cannot fire on ten-value ranks and `tenPair` fires next. -/
theorem pairDecision_ten_pair (r1 r2 : Rank) (d : Nat)
    (h1 : isTenValueRank r1 = true) (h2 : isTenValueRank r2 = true) :
    pairDecision (some r1) (some r2) d =
      ⟨Action.STAND, "10-value pair: stand."⟩ := by
  have v1 : rankValue r1 = 10 := (rankValue_eq_ten_iff r1).2 h1
  have v2 : rankValue r2 = 10 := (rankValue_eq_ten_iff r2).2 h2
  have a1 : r1 ≠ Rank.A := by rintro rfl; simp [rankValue] at v1
  have a2 : r2 ≠ Rank.A := by rintro rfl; simp [rankValue] at v2
  have e1 : r1 ≠ Rank.n8 := by rintro rfl; simp [rankValue] at v1
  have e2 : r2 ≠ Rank.n8 := by rintro rfl; simp [rankValue] at v2
  simp [pairDecision, isTenOpt, rankValueOpt, h1, h2, v1, v2, a1, e1]

/-- Two ten-value cards evaluate to a hard 20. -/
theorem handTotal_ten_pair (c1 c2 : Card)
    (h1 : isTenValueRank c1.r = true) (h2 : isTenValueRank c2.r = true) :
    handTotal [c1, c2] = ⟨20, false⟩ := by
  have v1 : rankValue c1.r = 10 := (rankValue_eq_ten_iff c1.r).2 h1
  have v2 : rankValue c2.r = 10 := (rankValue_eq_ten_iff c2.r).2 h2
  have a1 : c1.r ≠ Rank.A := by intro h; rw [h] at v1; simp [rankValue] at v1
  have a2 : c2.r ≠ Rank.A := by intro h; rw [h] at v2; simp [rankValue] at v2
  simp [handTotal, highSum, aceCount, baseAsOne, adjust, a1, a2, v1, v2]

/-- C5. On a two-card hand of two ten-value cards (same or mixed
ranks), the strategy engine never answers SPLIT, and with `canSplit` true
it answers STAND for every dealer up-card and either `canDouble`
setting. -/
theorem ten_pair_never_split (c1 c2 : Card) (dealerUp : Option Card)
    (opts : Opts) (h1 : isTenValueRank c1.r = true)
    (h2 : isTenValueRank c2.r = true) :
    (basicStrategyDecision [c1, c2] dealerUp opts).action ≠ Action.SPLIT ∧
    (opts.canSplit = true →
      (basicStrategyDecision [c1, c2] dealerUp opts).action = Action.STAND) := by
  have hpair : isPair [c1, c2] = true := by simp [isPair, h1, h2]
  by_cases hcs : opts.canSplit = true
  · have hbr : basicStrategyDecision [c1, c2] dealerUp opts =
        pairDecision (some c1.r) (some c2.r) (upcardValue dealerUp) := by
      simp [basicStrategyDecision, hpair, hcs, rankAt]
    rw [hbr, pairDecision_ten_pair c1.r c2.r _ h1 h2]
    exact ⟨by simp, fun _ => rfl⟩
  · have hht := handTotal_ten_pair c1 c2 h1 h2
    have hbr : basicStrategyDecision [c1, c2] dealerUp opts =
        hardDecision 20 (upcardValue dealerUp) opts.canDouble := by
      simp [basicStrategyDecision, hcs, hht]
    have hhard : hardDecision 20 (upcardValue dealerUp) opts.canDouble =
        ⟨Action.STAND, "Hard 17+ stand."⟩ := by
      simp [hardDecision]
    rw [hbr, hhard]
    exact ⟨by simp, fun h => absurd h hcs⟩

/-- C5 witness. K♠ K♥ against a dealer 6 with both flags available
answers STAND, never SPLIT. -/
theorem ten_pair_never_split_witness :
    (basicStrategyDecision [cK, cKh] (some c6) ⟨true, true⟩).action ≠
      Action.SPLIT ∧
    (basicStrategyDecision [cK, cKh] (some c6) ⟨true, true⟩).action =
      Action.STAND := by
  have h := ten_pair_never_split cK cKh (some c6) ⟨true, true⟩
    (by decide) (by decide)
  exact ⟨h.1, h.2 rfl⟩

/-! ## Uniform DOUBLE-to-HIT degrade -/

/-- The pairs section never answers DOUBLE. -/
theorem pairDecision_no_double (r1 r2 : Option Rank) (d : Nat) :
    (pairDecision r1 r2 d).action ≠ Action.DOUBLE := by
  unfold pairDecision
  split_ifs <;> simp [Decision.mk.injEq]

/-- If the soft-totals section falls through to the hard table, it does so
for either `canDouble` setting: the fall-through test only reads
`softTotal`. -/
theorem softDecision_none_of_none (st d : Nat) (b : Bool)
    (h : softDecision st d true = none) : softDecision st d b = none := by
  unfold softDecision at h ⊢
  split_ifs at h ⊢ <;> simp_all

/-- A DOUBLE answered by the soft table with `canDouble` available degrades
to HIT (never STAND) when it is not. -/
theorem softDecision_degrade (st d : Nat) (dec : Decision)
    (h : softDecision st d true = some dec) (hd : dec.action = Action.DOUBLE) :
    ∃ dec2, softDecision st d false = some dec2 ∧
      dec2.action = Action.HIT := by
  unfold softDecision at h ⊢
  simp only [eq_self_iff_true, and_true, Bool.false_eq_true, and_false,
    if_false] at h ⊢
  split_ifs at h ⊢ <;>
    first
      | exact ⟨_, rfl, rfl⟩
      | (exfalso; omega)
      | (exfalso; cases h; exact absurd hd (by simp))

/-- A DOUBLE answered by the hard table with `canDouble` available degrades
to HIT (never STAND) when it is not. -/
theorem hardDecision_degrade (t d : Nat)
    (h : (hardDecision t d true).action = Action.DOUBLE) :
    (hardDecision t d false).action = Action.HIT := by
  unfold hardDecision at h ⊢
  split_ifs at h ⊢ <;> simp_all

/-- C8. Whenever the engine would answer DOUBLE with `canDouble`
available (a DOUBLE condition of the pair, soft, or hard table matches —
the pair table contributes no such condition), the same input with
`canDouble` false answers HIT, never STAND, uniformly across the three
tables. -/
theorem double_degrades_to_hit (playerCards : List Card)
    (dealerUp : Option Card) (cs : Bool)
    (h : (basicStrategyDecision playerCards dealerUp ⟨true, cs⟩).action =
      Action.DOUBLE) :
    (basicStrategyDecision playerCards dealerUp ⟨false, cs⟩).action =
      Action.HIT := by
  unfold basicStrategyDecision at h ⊢
  by_cases hp : isPair playerCards = true ∧ cs = true
  · rw [if_pos hp] at h
    exact absurd h (pairDecision_no_double _ _ _)
  · rw [if_neg hp] at h ⊢
    by_cases hs : (handTotal playerCards).soft = true
    · rw [if_pos hs] at h ⊢
      rcases hsd : softDecision (nonAceSum playerCards + 11)
          (upcardValue dealerUp) true with _ | dec
      · rw [hsd] at h
        rw [softDecision_none_of_none _ _ false hsd]
        exact hardDecision_degrade _ _ h
      · rw [hsd] at h
        obtain ⟨dec2, hd2, ha2⟩ :=
          softDecision_degrade _ _ dec hsd h
        rw [hd2]
        exact ha2
    · rw [if_neg hs] at h ⊢
      exact hardDecision_degrade _ _ h

/-- C8 witness. Soft 18 (A♠ 7♥) against a dealer 4 answers DOUBLE with
doubling available, and degrades to HIT (not STAND) without it. -/
theorem double_degrades_to_hit_witness :
    (basicStrategyDecision [cA, c7h] (some c4d) ⟨false, true⟩).action =
      Action.HIT :=
  double_degrades_to_hit [cA, c7h] (some c4d) true (by decide)

end Blackjack
